import Mathlib

/-!
Verification development for the p4 code-review diff generator
(`cr-codereview.py` / `codereview.py`).

The program is embedded shallowly: Python 2 byte strings become `List Char`
(one `Char` per byte), the string primitives the program uses
(`splitlines`, `split('\n')`, `replace`, `join`, `rstrip('\n')`) are
defined with Python 2 semantics, and the single regular expression
`P4FILECHANGED_REGEX = (.*?)#(\d+)\s*-\s*(\w+).*?\((\w+)\)` is given a
specialised backtracking matcher with Python's leftmost / lazy / greedy
preferences.  External subprocess calls (`p4 opened`, `p4 diff`,
`p4 print`) and file reads are modelled as oracle functions from the
command string (resp. file name) to the produced output, so every program
function is a pure function of its inputs and the oracles.
-/

/-- A Python 2 byte string, one `Char` per byte. -/
abbrev Str := List Char

/-- Python 2 `\s` for byte strings: space, tab, newline, carriage return,
vertical tab, form feed. -/
def pyIsSpace (c : Char) : Bool :=
  c = ' ' || c = '\t' || c = '\n' || c = '\r' || c = Char.ofNat 0x0B || c = Char.ofNat 0x0C

/-- Python 2 `\w` for byte strings without locale flags: ASCII letters,
digits and underscore. -/
def pyIsWord (c : Char) : Bool :=
  c.isAlphanum || c = '_'

/-- Python 2 `str.splitlines()`: split on `\n`, `\r`, and `\r\n`,
discarding the line breaks.  An empty string yields no lines. -/
def pySplitlines : Str → List Str
  | [] => []
  | '\n' :: rest => [] :: pySplitlines rest
  | '\r' :: '\n' :: rest => [] :: pySplitlines rest
  | '\r' :: rest => [] :: pySplitlines rest
  | c :: rest =>
    match pySplitlines rest with
    | [] => [[c]]
    | l :: ls => (c :: l) :: ls

/-- Python 2 `str.split('\n')`: an empty string yields one empty field,
and every separator opens a new field. -/
def pySplitNl : Str → List Str
  | [] => [[]]
  | c :: rest =>
    if c = '\n' then [] :: pySplitNl rest
    else
      match pySplitNl rest with
      | [] => [[c]]
      | l :: ls => (c :: l) :: ls

/-- Python 2 `sep.join(parts)`. -/
def pyJoin (sep : Str) : List Str → Str
  | [] => []
  | [l] => l
  | l :: rest => l ++ sep ++ pyJoin sep rest

/-- Python 2 `s.replace('\xc2\x85', '\n')`: left-to-right, non-overlapping
replacement of the two-byte sequence `0xC2 0x85` by a line feed. -/
def pyReplaceC285 : Str → Str
  | [] => []
  | [c] => [c]
  | c :: c2 :: rest =>
    if c = Char.ofNat 0xC2 && c2 = Char.ofNat 0x85 then '\n' :: pyReplaceC285 rest
    else c :: pyReplaceC285 (c2 :: rest)

/-- Python 2 `s.replace('/', '\\')` (single-character pattern). -/
def pyMapSlash (s : Str) : Str :=
  s.map (fun c => if c = '/' then '\\' else c)

/-- Python 2 `s.rstrip('\n')`: drop every trailing line feed. -/
def pyRstripNl (s : Str) : Str :=
  (s.reverse.dropWhile (fun c => c = '\n')).reverse

/-!
### The matcher for `P4FILECHANGED_REGEX`

Pattern: `(.*?)#(\d+)\s*-\s*(\w+).*?\((\w+)\)`, used through `re.search`.
`.` does not match `\n`; `(.*?)` and `.*?` are lazy; `(\d+)`, `\s*` and
`(\w+)` are greedy, and for this pattern greedy runs never have to give
characters back (a digit cannot start `\s*-`, a whitespace character is
never `-`, a word character is never `(` or `)`), so each quantifier is
resolved by a maximal scan.
-/

/-- Resolve the tail `.*?\((\w+)\)`: find the leftmost `(` that is followed
by a nonempty word run and then `)`; the lazy `.*?` cannot cross `\n`. -/
def findParen : Str → Option Str
  | [] => none
  | c :: rest =>
    if c = '(' then
      let w := rest.takeWhile pyIsWord
      let r := rest.dropWhile pyIsWord
      if w.isEmpty then findParen rest
      else
        match r with
        | ')' :: _ => some w
        | _ => findParen rest
    else if c = '\n' then none
    else findParen rest

/-- Resolve `(\d+)\s*-\s*(\w+).*?\((\w+)\)` against the text after a `#`,
returning the captures of groups 2, 3 and 4. -/
def matchAfterHash (s : Str) : Option (Str × Str × Str) :=
  let d := s.takeWhile Char.isDigit
  let s1 := s.dropWhile Char.isDigit
  if d.isEmpty then none
  else
    match s1.dropWhile pyIsSpace with
    | '-' :: s3 =>
      let s4 := s3.dropWhile pyIsSpace
      let w := s4.takeWhile pyIsWord
      let s5 := s4.dropWhile pyIsWord
      if w.isEmpty then none
      else
        match findParen s5 with
        | some w4 => some (d, w, w4)
        | none => none
    | _ => none

/-- Attempt the whole pattern at one start position: the lazy `(.*?)`
(accumulated reversed in `g1`) grows one character at a time, trying the
rest of the pattern at every `#`, and cannot absorb `\n`. -/
def tryAt : Str → Str → Option (Str × Str × Str × Str)
  | _, [] => none
  | g1, c :: rest =>
    if c = '#' then
      match matchAfterHash rest with
      | some (d, w, f) => some (g1.reverse, d, w, f)
      | none => tryAt ('#' :: g1) rest
    else if c = '\n' then none
    else tryAt (c :: g1) rest

/-- `P4FILECHANGED_REGEX.search(line)`: try each start position from the
left and return the four captures of the first successful match. -/
def p4Search : Str → Option (Str × Str × Str × Str)
  | [] => none
  | c :: rest =>
    match tryAt [] (c :: rest) with
    | some r => some r
    | none => p4Search rest

/-!
### The program functions of `cr-codereview.py`

Each `cr...` definition is the direct translation of the Python function
of the same (snake-case) name.  Subprocess output is supplied by an
oracle `runCmd : Str → Str` applied to the exact command string the
program builds; the content of a locally opened file is supplied by an
oracle `readFile : Str → Str` applied to the file name.
-/

/-- An entry of `existingfiles`: `(depotFile, clientFile, revision, fileType)`. -/
abbrev EntryE := Str × Str × Str × Str

/-- An entry of `newfiles` or `deletedfiles`: `(depotFile, clientFile, revision)`. -/
abbrev EntryN := Str × Str × Str

/-- Decidability of equality on the bucket triple, assembled explicitly
because automatic synthesis stalls on the nested product. -/
instance decEqBuckets : DecidableEq (List EntryE × List EntryN × List EntryN) :=
  @instDecidableEqProd _ _ instDecidableEqList
    (@instDecidableEqProd _ _ instDecidableEqList instDecidableEqList)

/-- `MODIFIED_STR % (mfile, efile, rev, fltype)` from `cr-codereview.py`. -/
def modifiedHeader (mfile efile rev fltype : Str) : Str :=
  "... depotFile ".data ++ mfile ++ "\n... clientFile ".data ++ efile ++
    "\n... rev ".data ++ rev ++ "\n... type ".data ++ fltype ++ "\n\n".data

/-- The command string `get_modified` builds:
`"p4 diff " + myopts + " " + "\"" + efile + "\"" + REV_NUM`. -/
def crDiffCmd (myopts efile revnum : Str) : Str :=
  "p4 diff ".data ++ myopts ++ " ".data ++ "\"".data ++ efile ++ "\"".data ++ revnum

/-- `get_modified(myopts, mfile, efile, rev, fltype)`: run the native diff,
drop its first two lines, and prepend the synthesized header block. -/
def crGetModified (runCmd : Str → Str) (myopts mfile efile rev fltype revnum : Str) : Str :=
  let output := runCmd (crDiffCmd myopts efile revnum)
  let lines := pySplitlines output
  modifiedHeader mfile efile rev fltype ++ pyJoin "\n".data (lines.drop 2) ++ "\n".data

/-- `get_add(dfile, afile, rev)`: read the local file, normalize `\xc2\x85`
to `\n`, split into lines, and fabricate an all-added hunk. -/
def crGetAdd (readFile : Str → Str) (dfile afile rev : Str) : Str :=
  let lines := pySplitlines (pyReplaceC285 (readFile afile))
  "\n".data ++ "--- /dev/null\n".data ++
    "+++ ".data ++ dfile ++ "\t(revision ".data ++ rev ++ ")\n".data ++
    "@@ -0,0 +1,".data ++ (Nat.repr lines.length).data ++ " @@\n".data ++
    "+".data ++ pyJoin "\n+".data lines ++ "\n".data

/-- The command string `get_deleted` builds:
`"p4 print -q " + "\"" + dfile + "\"" + '#' + rev`. -/
def crPrintCmd (dfile rev : Str) : Str :=
  "p4 print -q ".data ++ "\"".data ++ dfile ++ "\"".data ++ "#".data ++ rev

/-- `get_deleted(dfile, rev)`: fetch the historical content and fabricate
an all-removed hunk. -/
def crGetDeleted (runCmd : Str → Str) (dfile rev : Str) : Str :=
  let output := runCmd (crPrintCmd dfile rev)
  let lines := pySplitlines output
  "\n".data ++ "--- ".data ++ dfile ++ "\t(revision ".data ++ rev ++ ")\n".data ++
    "+++ /dev/null\n".data ++
    "@@ -1,".data ++ (Nat.repr lines.length).data ++ " +0,0 @@\n".data ++
    "-".data ++ pyJoin "\n-".data lines ++ "\n".data

/-- The path translation inside `get_changed_files`: on Windows
`myclroot + myf[2:].replace('/', '\\')`, otherwise `myclroot + myf[2:]`. -/
def crTranslate (iswindows : Bool) (myclroot myf : Str) : Str :=
  if iswindows then myclroot ++ pyMapSlash (myf.drop 2)
  else myclroot ++ myf.drop 2

/-- The `p4 opened` command string built by `get_changed_files`. -/
def crOpenedCmd (filelist : Str) : Str :=
  if filelist.length = 0 then "p4 opened".data
  else "p4 opened ".data ++ filelist

/-- One iteration of the classification loop of `get_changed_files`:
match the line against the pattern and append the entry to the bucket
selected by the change verb. -/
def gcfStep (iswindows : Bool) (myclroot : Str)
    (acc : List EntryE × List EntryN × List EntryN) (line : Str) :
    List EntryE × List EntryN × List EntryN :=
  match p4Search line with
  | none => acc
  | some (myf0, revision, changetype, filetype) =>
    let myf := crTranslate iswindows myclroot myf0
    if changetype = "edit".data then
      (acc.1 ++ [(myf0, myf, revision, filetype)], acc.2.1, acc.2.2)
    else if changetype = "add".data then
      (acc.1, acc.2.1 ++ [(myf0, myf, revision)], acc.2.2)
    else if changetype = "delete".data then
      (acc.1, acc.2.1, acc.2.2 ++ [(myf0, myf, revision)])
    else acc

/-- `get_changed_files(p4depot, myclroot, filelist)` (the `p4depot`
argument is unused in the source).  Runs `p4 opened`, splits its output on
`\n`, and classifies each line. -/
def crGetChangedFiles (runCmd : Str → Str) (iswindows : Bool)
    (p4depot myclroot filelist : Str) :
    List EntryE × List EntryN × List EntryN :=
  let _ := p4depot
  let output := runCmd (crOpenedCmd filelist)
  (pySplitNl output).foldl (gcfStep iswindows myclroot) ([], [], [])

/-- The first accumulation loop of `main`: modified entries, in order. -/
def crModLoop (runCmd : Str → Str) (myopts revnum : Str) : List EntryE → Str
  | [] => []
  | (depotfile, efile, revision, fltype) :: rest =>
    crGetModified runCmd myopts depotfile efile revision fltype revnum ++
      crModLoop runCmd myopts revnum rest

/-- The second accumulation loop of `main`: added entries, in order. -/
def crAddLoop (readFile : Str → Str) : List EntryN → Str
  | [] => []
  | (dfile, nfile, revision) :: rest =>
    crGetAdd readFile dfile nfile revision ++ crAddLoop readFile rest

/-- The third accumulation loop of `main`: deleted entries, in order
(`get_deleted` ignores the client-side file name). -/
def crDelLoop (runCmd : Str → Str) : List EntryN → Str
  | [] => []
  | (dfile, _nfile, revision) :: rest =>
    crGetDeleted runCmd dfile revision ++ crDelLoop runCmd rest

/-- The `newoutput` buffer of `main` before the final `rstrip('\n')`:
all modified fragments, then all added fragments, then all deleted
fragments. -/
def crRawBuffer (runCmd readFile : Str → Str) (myopts revnum : Str)
    (iswindows : Bool) (p4depot myclroot filelist : Str) : Str :=
  let buckets := crGetChangedFiles runCmd iswindows p4depot myclroot filelist
  crModLoop runCmd myopts revnum buckets.1 ++
    crAddLoop readFile buckets.2.1 ++ crDelLoop runCmd buckets.2.2

/-- Terminal outcome of `main` after classification: either the
"Nothing modified, added, nor deleted" message with `sys.exit(0)`, or the
assembled diff text printed to standard output. -/
inductive CrOutcome where
  | nothingChanged : CrOutcome
  | diffText : Str → CrOutcome
deriving DecidableEq

/-- Exit status of each terminal outcome: `sys.exit(0)` for the empty
change set, and the interpreter's normal (zero) exit after printing. -/
def crExitCode : CrOutcome → Nat
  | CrOutcome.nothingChanged => 0
  | CrOutcome.diffText _ => 0

/-- The tail of `main` from the `get_p4files` call onward: classify, stop
with the "nothing changed" message if all three buckets are empty, and
otherwise emit the concatenated fragments with trailing line feeds
stripped. -/
def crMain (runCmd readFile : Str → Str) (myopts revnum : Str)
    (iswindows : Bool) (p4depot myclroot filelist : Str) : CrOutcome :=
  let buckets := crGetChangedFiles runCmd iswindows p4depot myclroot filelist
  if buckets.1.length = 0 ∧ buckets.2.1.length = 0 ∧ buckets.2.2.length = 0 then
    CrOutcome.nothingChanged
  else
    CrOutcome.diffText
      (pyRstripNl (crRawBuffer runCmd readFile myopts revnum iswindows p4depot myclroot filelist))

/-!
### Per-line classification functions

`crLineEdit`, `crLineAdd` and `crLineDel` restate one iteration of the
classification loop as three independent partial functions on a line;
the lemma `crGetChangedFiles_eq` below shows the loop computes exactly
their `filterMap`s over the listing, which settles both the
partition/ignoring claims and the order-preservation claims.
-/

/-- The entry the classification loop appends to `existingfiles` for a
line, when it appends one. -/
def crLineEdit (iswindows : Bool) (myclroot line : Str) : Option EntryE :=
  match p4Search line with
  | some (myf0, revision, changetype, filetype) =>
    if changetype = "edit".data then
      some (myf0, crTranslate iswindows myclroot myf0, revision, filetype)
    else none
  | none => none

/-- The entry the classification loop appends to `newfiles` for a line,
when it appends one. -/
def crLineAdd (iswindows : Bool) (myclroot line : Str) : Option EntryN :=
  match p4Search line with
  | some (myf0, revision, changetype, _filetype) =>
    if changetype = "add".data then
      some (myf0, crTranslate iswindows myclroot myf0, revision)
    else none
  | none => none

/-- The entry the classification loop appends to `deletedfiles` for a
line, when it appends one. -/
def crLineDel (iswindows : Bool) (myclroot line : Str) : Option EntryN :=
  match p4Search line with
  | some (myf0, revision, changetype, _filetype) =>
    if changetype = "delete".data then
      some (myf0, crTranslate iswindows myclroot myf0, revision)
    else none
  | none => none

/-!
### Helper lemmas
-/

theorem pyJoin_nil (sep : Str) : pyJoin sep [] = [] := rfl

theorem pyJoin_single (sep : Str) (l : Str) : pyJoin sep [l] = l := rfl

theorem pyJoin_cons_cons (sep : Str) (l l' : Str) (t : List Str) :
    pyJoin sep (l :: l' :: t) = l ++ sep ++ pyJoin sep (l' :: t) := rfl

/-- The body `pfx + ('\n' + pfx).join(lines) + '\n'` of a fabricated hunk
is, for a nonempty line list, the concatenation of the lines each
prefixed with `pfx` and terminated by a line feed. -/
theorem hunk_body_flatten (pfx : Char) :
    ∀ ls : List Str, ls ≠ [] →
      [pfx] ++ pyJoin ('\n' :: [pfx]) ls ++ ['\n'] =
        (ls.map (fun l => pfx :: (l ++ ['\n']))).flatten
  | [], h => absurd rfl h
  | [l], _ => by simp [pyJoin_single]
  | l :: l' :: t, _ => by
    have ih := hunk_body_flatten pfx (l' :: t) (by simp)
    rw [pyJoin_cons_cons]
    simp only [List.map_cons, List.flatten_cons] at ih ⊢
    rw [← ih]
    simp [List.append_assoc]

/-- Lines produced by `pySplitlines` contain no line-break bytes. -/
theorem pySplitlines_clean :
    ∀ s : Str, ∀ l ∈ pySplitlines s, ∀ c ∈ l, c ≠ '\n' ∧ c ≠ '\r' := by
  intro s
  induction s using pySplitlines.induct with
  | case1 => intro l hl; simp [pySplitlines.eq_1] at hl
  | case2 rest ih =>
    intro l hl
    rw [pySplitlines.eq_2] at hl
    rcases List.mem_cons.mp hl with rfl | h
    · simp
    · exact ih l h
  | case3 rest ih =>
    intro l hl
    rw [pySplitlines.eq_3] at hl
    rcases List.mem_cons.mp hl with rfl | h
    · simp
    · exact ih l h
  | case4 rest hside ih =>
    intro l hl
    rw [pySplitlines.eq_4 rest hside] at hl
    rcases List.mem_cons.mp hl with rfl | h
    · simp
    · exact ih l h
  | case5 c rest h1 h2 h3 hnil ih =>
    intro l hl
    rw [pySplitlines.eq_5 c rest h1 h2 h3, hnil] at hl
    simp only [List.mem_singleton] at hl
    subst hl
    intro c' hc'
    simp only [List.mem_singleton] at hc'
    subst hc'
    exact ⟨h1, h3⟩
  | case6 c rest h1 h2 h3 l0 ls hcons ih =>
    intro l hl
    rw [pySplitlines.eq_5 c rest h1 h2 h3, hcons] at hl
    simp only [List.mem_cons] at hl
    rcases hl with rfl | h
    · intro c' hc'
      rcases List.mem_cons.mp hc' with rfl | h'
      · exact ⟨h1, h3⟩
      · exact ih l0 (by rw [hcons]; exact List.mem_cons_self _ _) c' h'
    · exact ih l (by rw [hcons]; exact List.mem_cons_of_mem _ h)

/-- Splitting after a clean (line-break-free) first line. -/
theorem pySplitlines_clean_append (a b : Str)
    (h : ∀ c ∈ a, c ≠ '\n' ∧ c ≠ '\r') :
    pySplitlines (a ++ '\n' :: b) = a :: pySplitlines b := by
  induction a with
  | nil => simpa using pySplitlines.eq_2 b
  | cons c a' ih =>
    have hc := h c (List.mem_cons_self _ _)
    have ih' := ih (fun x hx => h x (List.mem_cons_of_mem _ hx))
    rw [List.cons_append,
      pySplitlines.eq_5 c (a' ++ '\n' :: b) hc.1 (fun _ hr _ => hc.2 hr) hc.2, ih']

/-- `splitlines` recovers the lines from a `'\n'.join` of clean lines
followed by a final line feed. -/
theorem pySplitlines_join (ls : List Str) (hne : ls ≠ [])
    (h : ∀ l ∈ ls, ∀ c ∈ l, c ≠ '\n' ∧ c ≠ '\r') :
    pySplitlines (pyJoin "\n".data ls ++ "\n".data) = ls := by
  induction ls with
  | nil => exact absurd rfl hne
  | cons l t ih =>
    cases t with
    | nil =>
      have := pySplitlines_clean_append l [] (h l (List.mem_cons_self _ _))
      simpa [pyJoin_single] using this
    | cons l' t' =>
      rw [pyJoin_cons_cons]
      have harr : (l ++ "\n".data ++ pyJoin "\n".data (l' :: t')) ++ "\n".data =
          l ++ '\n' :: (pyJoin "\n".data (l' :: t') ++ "\n".data) := by
        simp [List.append_assoc]
      rw [harr, pySplitlines_clean_append l _ (h l (List.mem_cons_self _ _)),
        ih (by simp) (fun x hx => h x (List.mem_cons_of_mem _ hx))]

/-- The head surviving a `dropWhile` does not satisfy the predicate. -/
theorem head?_dropWhile_not (p : Char → Bool) :
    ∀ l : List Char, ∀ c, (l.dropWhile p).head? = some c → p c = false := by
  intro l
  induction l with
  | nil => intro c h; simp [List.dropWhile] at h
  | cons a t ih =>
    intro c h
    rw [List.dropWhile_cons] at h
    by_cases hp : p a
    · rw [if_pos (by simpa using hp)] at h
      exact ih c h
    · rw [if_neg (by simpa using hp)] at h
      simp only [List.head?_cons, Option.some.injEq] at h
      subst h
      simpa using hp

/-- `rstrip('\n')` splits a string into its line-feed-free tail end and a
run of trailing line feeds, leaving every earlier byte untouched. -/
theorem pyRstripNl_spec (s : Str) :
    ∃ k, s = pyRstripNl s ++ List.replicate k '\n' ∧
      ∀ c, (pyRstripNl s).getLast? = some c → c ≠ '\n' := by
  refine ⟨(s.reverse.takeWhile (fun c => c = '\n')).length, ?_, ?_⟩
  · have hsplit := List.takeWhile_append_dropWhile (fun c => decide (c = '\n')) s.reverse
    have hrep : (s.reverse.takeWhile (fun c => decide (c = '\n'))) =
        List.replicate (s.reverse.takeWhile (fun c => decide (c = '\n'))).length '\n' :=
      List.eq_replicate_of_mem (fun b hb => by simpa using List.mem_takeWhile_imp hb)
    conv_lhs => rw [← s.reverse_reverse, ← hsplit]
    rw [List.reverse_append, pyRstripNl]
    rw [hrep, List.reverse_replicate]
    simp
  · intro c hc
    rw [pyRstripNl, List.getLast?_reverse] at hc
    have := head?_dropWhile_not (fun c => decide (c = '\n')) s.reverse c hc
    simpa using this

/-- The classification loop computes the three `filterMap`s of the
per-line classifiers, appended after any starting accumulator. -/
theorem gcfFold_eq (iswindows : Bool) (myclroot : Str) :
    ∀ (lines : List Str) (e : List EntryE) (a d : List EntryN),
      lines.foldl (gcfStep iswindows myclroot) (e, a, d) =
        (e ++ lines.filterMap (crLineEdit iswindows myclroot),
         a ++ lines.filterMap (crLineAdd iswindows myclroot),
         d ++ lines.filterMap (crLineDel iswindows myclroot)) := by
  intro lines
  induction lines with
  | nil => intro e a d; simp
  | cons line rest ih =>
    intro e a d
    rw [List.foldl_cons]
    rcases hps : p4Search line with _ | ⟨myf0, revision, changetype, filetype⟩
    · have hstep : gcfStep iswindows myclroot (e, a, d) line = (e, a, d) := by
        simp [gcfStep, hps]
      rw [hstep, ih]
      simp [List.filterMap_cons, crLineEdit, crLineAdd, crLineDel, hps]
    · have hed : ("edit".data : Str) ≠ "add".data := by decide
      have hed2 : ("edit".data : Str) ≠ "delete".data := by decide
      have had : ("add".data : Str) ≠ "delete".data := by decide
      by_cases h1 : changetype = "edit".data
      · subst h1
        have hstep : gcfStep iswindows myclroot (e, a, d) line =
            (e ++ [(myf0, crTranslate iswindows myclroot myf0, revision, filetype)], a, d) := by
          simp [gcfStep, hps]
        rw [hstep, ih]
        simp [List.filterMap_cons, crLineEdit, crLineAdd, crLineDel, hps, hed, hed2]
      · by_cases h2 : changetype = "add".data
        · subst h2
          have hstep : gcfStep iswindows myclroot (e, a, d) line =
              (e, a ++ [(myf0, crTranslate iswindows myclroot myf0, revision)], d) := by
            simp [gcfStep, hps, hed.symm]
          rw [hstep, ih]
          simp [List.filterMap_cons, crLineEdit, crLineAdd, crLineDel, hps, hed.symm, had]
        · by_cases h3 : changetype = "delete".data
          · subst h3
            have hstep : gcfStep iswindows myclroot (e, a, d) line =
                (e, a, d ++ [(myf0, crTranslate iswindows myclroot myf0, revision)]) := by
              simp [gcfStep, hps, hed2.symm, had.symm]
            rw [hstep, ih]
            simp [List.filterMap_cons, crLineEdit, crLineAdd, crLineDel, hps,
              hed2.symm, had.symm]
          · have hstep : gcfStep iswindows myclroot (e, a, d) line = (e, a, d) := by
              simp [gcfStep, hps, h1, h2, h3]
            rw [hstep, ih]
            simp [List.filterMap_cons, crLineEdit, crLineAdd, crLineDel, hps, h1, h2, h3]

/-- `crGetChangedFiles` as the three per-line `filterMap`s. -/
theorem crGetChangedFiles_eq (runCmd : Str → Str) (iswindows : Bool)
    (p4depot myclroot filelist : Str) :
    crGetChangedFiles runCmd iswindows p4depot myclroot filelist =
      ((pySplitNl (runCmd (crOpenedCmd filelist))).filterMap (crLineEdit iswindows myclroot),
       (pySplitNl (runCmd (crOpenedCmd filelist))).filterMap (crLineAdd iswindows myclroot),
       (pySplitNl (runCmd (crOpenedCmd filelist))).filterMap (crLineDel iswindows myclroot)) := by
  rw [crGetChangedFiles]
  exact gcfFold_eq iswindows myclroot _ [] [] []

/-- The first loop of `main`, fragment by fragment. -/
theorem crModLoop_eq_flatten (runCmd : Str → Str) (myopts revnum : Str) :
    ∀ ls : List EntryE,
      crModLoop runCmd myopts revnum ls =
        (ls.map (fun x =>
          crGetModified runCmd myopts x.1 x.2.1 x.2.2.1 x.2.2.2 revnum)).flatten := by
  intro ls
  induction ls with
  | nil => rfl
  | cons x t ih => rcases x with ⟨a, b, c, d⟩; simp [crModLoop, ih]

/-- The second loop of `main`, fragment by fragment. -/
theorem crAddLoop_eq_flatten (readFile : Str → Str) :
    ∀ ls : List EntryN,
      crAddLoop readFile ls =
        (ls.map (fun x => crGetAdd readFile x.1 x.2.1 x.2.2)).flatten := by
  intro ls
  induction ls with
  | nil => rfl
  | cons x t ih => rcases x with ⟨a, b, c⟩; simp [crAddLoop, ih]

/-- The third loop of `main`, fragment by fragment. -/
theorem crDelLoop_eq_flatten (runCmd : Str → Str) :
    ∀ ls : List EntryN,
      crDelLoop runCmd ls =
        (ls.map (fun x => crGetDeleted runCmd x.1 x.2.2)).flatten := by
  intro ls
  induction ls with
  | nil => rfl
  | cons x t ih => rcases x with ⟨a, b, c⟩; simp [crDelLoop, ih]

/-!
### Claims
-/

/-- C2: every line of the pending-changes listing that matches the fixed
pattern with verb `edit`, `add` or `delete` lands in exactly one of the
three buckets, selected solely by that verb; non-matching lines and
matching lines with any other verb appear in no bucket and raise no
error.  The buckets are exactly the `filterMap`s of the three per-line
classifiers, and for any matched line each classifier accepts precisely
when the captured verb is its own. -/
theorem get_changed_files_partition (runCmd : Str → Str) (iswindows : Bool)
    (p4depot myclroot filelist : Str) :
    crGetChangedFiles runCmd iswindows p4depot myclroot filelist =
      ((pySplitNl (runCmd (crOpenedCmd filelist))).filterMap (crLineEdit iswindows myclroot),
       (pySplitNl (runCmd (crOpenedCmd filelist))).filterMap (crLineAdd iswindows myclroot),
       (pySplitNl (runCmd (crOpenedCmd filelist))).filterMap (crLineDel iswindows myclroot))
    ∧ (∀ line, p4Search line = none →
        crLineEdit iswindows myclroot line = none ∧
        crLineAdd iswindows myclroot line = none ∧
        crLineDel iswindows myclroot line = none)
    ∧ (∀ line myf0 revision changetype filetype,
        p4Search line = some (myf0, revision, changetype, filetype) →
          (crLineEdit iswindows myclroot line ≠ none ↔ changetype = "edit".data) ∧
          (crLineAdd iswindows myclroot line ≠ none ↔ changetype = "add".data) ∧
          (crLineDel iswindows myclroot line ≠ none ↔ changetype = "delete".data)) := by
  refine ⟨crGetChangedFiles_eq runCmd iswindows p4depot myclroot filelist, ?_, ?_⟩
  · intro line h
    exact ⟨by simp [crLineEdit, h], by simp [crLineAdd, h], by simp [crLineDel, h]⟩
  · intro line myf0 revision changetype filetype hps
    refine ⟨?_, ?_, ?_⟩
    · simp only [crLineEdit, hps]
      by_cases h : changetype = "edit".data <;> simp [h]
    · simp only [crLineAdd, hps]
      by_cases h : changetype = "add".data <;> simp [h]
    · simp only [crLineDel, hps]
      by_cases h : changetype = "delete".data <;> simp [h]

/-- Concrete instance of `get_changed_files_partition`: a listing with one
line of each verb plus an informational line classifies into the three
expected singleton buckets. -/
theorem get_changed_files_partition_witness :
    crGetChangedFiles
        (fun _ => "//d/a.c#3 - edit (text)\n//d/b.c#1 - add (text)\njunk\n//d/c.c#2 - delete (text)".data)
        false [] "/r/".data [] =
      ([("//d/a.c".data, "/r/d/a.c".data, "3".data, "text".data)],
       [("//d/b.c".data, "/r/d/b.c".data, "1".data)],
       [("//d/c.c".data, "/r/d/c.c".data, "2".data)]) :=
  (get_changed_files_partition
      (fun _ => "//d/a.c#3 - edit (text)\n//d/b.c#1 - add (text)\njunk\n//d/c.c#2 - delete (text)".data)
      false [] "/r/".data []).1.trans (by decide)

/-- C3: entries keep their listing order inside each bucket (each bucket
is the order-preserving `filterMap` of the listing lines), and the raw
output buffer is the concatenation of all modified fragments, then all
added fragments, then all deleted fragments, whatever the interleaving of
kinds in the listing was. -/
theorem main_fragment_order (runCmd readFile : Str → Str) (myopts revnum : Str)
    (iswindows : Bool) (p4depot myclroot filelist : Str) :
    crRawBuffer runCmd readFile myopts revnum iswindows p4depot myclroot filelist =
      (((pySplitNl (runCmd (crOpenedCmd filelist))).filterMap
          (crLineEdit iswindows myclroot)).map
        (fun x => crGetModified runCmd myopts x.1 x.2.1 x.2.2.1 x.2.2.2 revnum)).flatten ++
      (((pySplitNl (runCmd (crOpenedCmd filelist))).filterMap
          (crLineAdd iswindows myclroot)).map
        (fun x => crGetAdd readFile x.1 x.2.1 x.2.2)).flatten ++
      (((pySplitNl (runCmd (crOpenedCmd filelist))).filterMap
          (crLineDel iswindows myclroot)).map
        (fun x => crGetDeleted runCmd x.1 x.2.2)).flatten := by
  simp only [crRawBuffer, crGetChangedFiles_eq, crModLoop_eq_flatten,
    crAddLoop_eq_flatten, crDelLoop_eq_flatten]

/-- C5 (amended): path translation never signals failure.  Every line the
pattern accepts with verb `edit` is classified, and its local path is
unconditionally `myclroot` plus the repo path with its first two bytes
removed (slash-to-backslash conversion on Windows), whether or not the
repo path starts with the repository root. -/
theorem translate_never_fails (runCmd : Str → Str) (iswindows : Bool)
    (p4depot myclroot filelist line myf0 revision changetype filetype : Str)
    (hline : line ∈ pySplitNl (runCmd (crOpenedCmd filelist)))
    (hps : p4Search line = some (myf0, revision, changetype, filetype))
    (hct : changetype = "edit".data) :
    (myf0, crTranslate iswindows myclroot myf0, revision, filetype) ∈
      (crGetChangedFiles runCmd iswindows p4depot myclroot filelist).1 := by
  rw [crGetChangedFiles_eq]
  exact List.mem_filterMap.mpr ⟨line, hline, by simp [crLineEdit, hps, hct]⟩

/-- Concrete instance of `translate_never_fails`: an accepted line whose
path is already local is still classified, with the sliced-and-prefixed
local path. -/
theorem translate_never_fails_witness :
    ("/u/x/a.c".data, crTranslate false "/home/me/ws/".data "/u/x/a.c".data,
        "1".data, "text".data) ∈
      (crGetChangedFiles (fun _ => "/u/x/a.c#1 - edit (text)".data) false
        [] "/home/me/ws/".data []).1 :=
  translate_never_fails (fun _ => "/u/x/a.c#1 - edit (text)".data) false
    [] "/home/me/ws/".data [] "/u/x/a.c#1 - edit (text)".data
    "/u/x/a.c".data "1".data "edit".data "text".data
    (by decide) (by decide) rfl

/-- Counterexample to C5 as stated: on the listing line
`/u/x/a.c#1 - edit (text)` — a path that does not start with the
repository root — the classifier does not drop or flag the entry; it
returns it with the local path `/home/me/ws//x/a.c`, a mangled string
(the leading `/u` was sliced off and the remainder glued to the client
root), so translation does not "succeed only for paths that start with
the repository root". -/
theorem claim_C5_counterexample :
    crGetChangedFiles (fun _ => "/u/x/a.c#1 - edit (text)".data) false
        [] "/home/me/ws/".data [] =
      ([("/u/x/a.c".data, "/home/me/ws//x/a.c".data, "1".data, "text".data)], [], []) ∧
    ("/home/me/ws//x/a.c".data : Str) ≠ "/home/me/ws/u/x/a.c".data ∧
    ("/home/me/ws//x/a.c".data : Str) ≠ "/u/x/a.c".data := by
  refine ⟨by decide, by decide, by decide⟩

/-- C1 (amended): for an added file whose content yields at least one
line after `\xc2\x85` normalization, the fabricated fragment's hunk
header declares exactly the number of those lines, and its body is
exactly those lines, each prefixed `+` and terminated by a line feed —
so stripping the `+` recovers the normalized content byte for byte; the
lines themselves contain no line-break byte. -/
theorem get_add_round_trip (readFile : Str → Str) (dfile afile rev : Str)
    (hne : pySplitlines (pyReplaceC285 (readFile afile)) ≠ []) :
    crGetAdd readFile dfile afile rev =
      "\n".data ++ "--- /dev/null\n".data ++
        "+++ ".data ++ dfile ++ "\t(revision ".data ++ rev ++ ")\n".data ++
        "@@ -0,0 +1,".data ++
        (Nat.repr (pySplitlines (pyReplaceC285 (readFile afile))).length).data ++
        " @@\n".data ++
        ((pySplitlines (pyReplaceC285 (readFile afile))).map
          (fun l => '+' :: (l ++ ['\n']))).flatten
    ∧ ∀ l ∈ pySplitlines (pyReplaceC285 (readFile afile)),
        ∀ c ∈ l, c ≠ '\n' ∧ c ≠ '\r' := by
  constructor
  · have hb : ("+".data : Str) ++
        (pyJoin "\n+".data (pySplitlines (pyReplaceC285 (readFile afile))) ++ "\n".data) =
        ((pySplitlines (pyReplaceC285 (readFile afile))).map
          (fun l => '+' :: (l ++ ['\n']))).flatten := by
      rw [← List.append_assoc]
      exact hunk_body_flatten '+' _ hne
    simp only [crGetAdd, List.append_assoc]
    rw [hb]
  · exact pySplitlines_clean _

/-- Concrete instance of `get_add_round_trip` on a one-line file. -/
theorem get_add_round_trip_witness :
    crGetAdd (fun _ => "x".data) "//d/f".data "a".data "1".data =
      "\n--- /dev/null\n+++ //d/f\t(revision 1)\n@@ -0,0 +1,1 @@\n+x\n".data :=
  ((get_add_round_trip (fun _ => "x".data) "//d/f".data "a".data "1".data
    (by decide)).1).trans (by decide)

/-- Counterexample to C1 as stated: for a file whose content yields zero
lines, the fragment does not contain zero `+`-prefixed body lines — after
its four header lines there is one body line consisting of the single
byte `+`. -/
theorem claim_C1_counterexample :
    (pySplitlines (pyReplaceC285 ((fun _ : Str => ([] : Str)) "f".data))).length = 0 ∧
    (pySplitlines (crGetAdd (fun _ => ([] : Str)) "//d/f".data "f".data "1".data)).drop 4 =
      ["+".data] := by decide

/-- C10: for an added file whose content yields zero lines, the fragment
declares `@@ -0,0 +1,0 @@` but still emits the single body line `+`. -/
theorem get_add_empty_content (readFile : Str → Str) (dfile afile rev : Str)
    (h : pySplitlines (pyReplaceC285 (readFile afile)) = []) :
    crGetAdd readFile dfile afile rev =
      "\n".data ++ "--- /dev/null\n".data ++ "+++ ".data ++ dfile ++
        "\t(revision ".data ++ rev ++ ")\n".data ++ "@@ -0,0 +1,0 @@\n".data ++
        "+\n".data := by
  have hr : (Nat.repr (0 : Nat)).data = ['0'] := by decide
  simp only [crGetAdd, h, List.length_nil, pyJoin_nil, List.append_nil, hr,
    List.append_assoc, List.cons_append, List.nil_append]

/-- Concrete instance of `get_add_empty_content` on an empty file. -/
theorem get_add_empty_content_witness :
    crGetAdd (fun _ => ([] : Str)) "//d/e".data "e".data "4".data =
      "\n--- /dev/null\n+++ //d/e\t(revision 4)\n@@ -0,0 +1,0 @@\n+\n".data :=
  (get_add_empty_content (fun _ => ([] : Str)) "//d/e".data "e".data "4".data
    (by decide)).trans (by decide)

/-- The common shape of a fabricated hunk: a leading blank line, two
header lines, a hunk-range line, and a body of `pfx`-prefixed lines. -/
def hunkFragment (hdr1 hdr2 rangeStr : Str) (pfx : Char) (lines : List Str) : Str :=
  "\n".data ++ hdr1 ++ "\n".data ++ hdr2 ++ "\n".data ++
    "@@ ".data ++ rangeStr ++ " @@\n".data ++
    [pfx] ++ pyJoin ('\n' :: [pfx]) lines ++ "\n".data

/-- C4 (amended): when the content contains no `\xc2\x85` sequence (so
the added-file normalization is the identity), the deleted-file fragment
for content `C` is the structural mirror of the added-file fragment for
the same `C`: both instantiate `hunkFragment` with the same line list and
the same declared line count, with the header direction reversed, the
hunk ranges `-0,0 +1,N` versus `-1,N +0,0`, and body prefix `+` versus
`-`. -/
theorem add_deleted_mirror (readFile runCmd : Str → Str) (C dfile afile rev : Str)
    (hread : readFile afile = C) (hfetch : runCmd (crPrintCmd dfile rev) = C)
    (hclean : pyReplaceC285 C = C) :
    crGetAdd readFile dfile afile rev =
      hunkFragment "--- /dev/null".data
        ("+++ ".data ++ dfile ++ "\t(revision ".data ++ rev ++ ")".data)
        ("-0,0 +1,".data ++ (Nat.repr (pySplitlines C).length).data)
        '+' (pySplitlines C)
    ∧ crGetDeleted runCmd dfile rev =
      hunkFragment ("--- ".data ++ dfile ++ "\t(revision ".data ++ rev ++ ")".data)
        "+++ /dev/null".data
        ("-1,".data ++ (Nat.repr (pySplitlines C).length).data ++ " +0,0".data)
        '-' (pySplitlines C) := by
  constructor
  · simp only [crGetAdd, hunkFragment, hread, hclean,
      List.append_assoc, List.cons_append, List.nil_append]
  · simp only [crGetDeleted, hunkFragment, hfetch,
      List.append_assoc, List.cons_append, List.nil_append]

/-- Concrete instance of `add_deleted_mirror` on the two-line content
`a\nb`. -/
theorem add_deleted_mirror_witness :
    crGetAdd (fun _ => "a\nb".data) "//d/f".data "x".data "2".data =
      hunkFragment "--- /dev/null".data
        ("+++ ".data ++ "//d/f".data ++ "\t(revision ".data ++ "2".data ++ ")".data)
        ("-0,0 +1,".data ++ (Nat.repr (pySplitlines "a\nb".data).length).data)
        '+' (pySplitlines "a\nb".data)
    ∧ crGetDeleted (fun _ => "a\nb".data) "//d/f".data "2".data =
      hunkFragment ("--- ".data ++ "//d/f".data ++ "\t(revision ".data ++ "2".data ++ ")".data)
        "+++ /dev/null".data
        ("-1,".data ++ (Nat.repr (pySplitlines "a\nb".data).length).data ++ " +0,0".data)
        '-' (pySplitlines "a\nb".data) :=
  add_deleted_mirror (fun _ => "a\nb".data) (fun _ => "a\nb".data)
    "a\nb".data "//d/f".data "x".data "2".data rfl rfl (by decide)

/-- Counterexample to C4 as stated: on the content `a \xc2\x85 b` the two
fragments are not mirrors — `get_add` normalizes the sequence to a line
break and declares two lines, while `get_deleted` does not normalize and
declares one, so the fragments even have different line counts. -/
theorem claim_C4_counterexample :
    (pySplitlines (crGetAdd (fun _ => ['a', Char.ofNat 0xC2, Char.ofNat 0x85, 'b'])
        "//d/f".data "x".data "2".data)).length ≠
    (pySplitlines (crGetDeleted (fun _ => ['a', Char.ofNat 0xC2, Char.ofNat 0x85, 'b'])
        "//d/f".data "2".data)).length := by decide

/-- Cleanliness of a concatenation, from cleanliness of the parts. -/
theorem cleanAppend {a b : Str} (ha : ∀ c ∈ a, c ≠ '\n' ∧ c ≠ '\r')
    (hb : ∀ c ∈ b, c ≠ '\n' ∧ c ≠ '\r') :
    ∀ c ∈ a ++ b, c ≠ '\n' ∧ c ≠ '\r' :=
  fun c hc => (List.mem_append.mp hc).elim (ha c) (hb c)

/-- C6: for every modified entry (whose fields, coming from the pattern's
captures of a listing line, are free of line breaks), the fragment's
lines are the four synthesized header lines stating depot path, client
path, revision and file type, a blank line, and then the native diff
output's lines with its first two (file-identification) lines
discarded and the rest kept verbatim. -/
theorem get_modified_header_and_hunks (runCmd : Str → Str)
    (myopts mfile efile rev fltype revnum : Str)
    (hm : ∀ c ∈ mfile, c ≠ '\n' ∧ c ≠ '\r') (he : ∀ c ∈ efile, c ≠ '\n' ∧ c ≠ '\r')
    (hr : ∀ c ∈ rev, c ≠ '\n' ∧ c ≠ '\r') (ht : ∀ c ∈ fltype, c ≠ '\n' ∧ c ≠ '\r')
    (hlen : 2 < (pySplitlines (runCmd (crDiffCmd myopts efile revnum))).length) :
    pySplitlines (crGetModified runCmd myopts mfile efile rev fltype revnum) =
      ("... depotFile ".data ++ mfile) :: ("... clientFile ".data ++ efile) ::
        ("... rev ".data ++ rev) :: ("... type ".data ++ fltype) :: ([] : Str) ::
        (pySplitlines (runCmd (crDiffCmd myopts efile revnum))).drop 2 := by
  have key : crGetModified runCmd myopts mfile efile rev fltype revnum =
      ("... depotFile ".data ++ mfile) ++ '\n' ::
        (("... clientFile ".data ++ efile) ++ '\n' ::
          (("... rev ".data ++ rev) ++ '\n' ::
            (("... type ".data ++ fltype) ++ '\n' ::
              (([] : Str) ++ '\n' ::
                (pyJoin "\n".data
                    ((pySplitlines (runCmd (crDiffCmd myopts efile revnum))).drop 2) ++
                  "\n".data))))) := by
    simp only [crGetModified, modifiedHeader, List.append_assoc, List.cons_append,
      List.nil_append]
  have hne : (pySplitlines (runCmd (crDiffCmd myopts efile revnum))).drop 2 ≠ [] := by
    have : 0 < ((pySplitlines (runCmd (crDiffCmd myopts efile revnum))).drop 2).length := by
      rw [List.length_drop]
      omega
    exact List.length_pos.mp this
  have hcl : ∀ l ∈ (pySplitlines (runCmd (crDiffCmd myopts efile revnum))).drop 2,
      ∀ c ∈ l, c ≠ '\n' ∧ c ≠ '\r' :=
    fun l hl => pySplitlines_clean _ l (List.mem_of_mem_drop hl)
  rw [key,
    pySplitlines_clean_append _ _ (cleanAppend (by decide) hm),
    pySplitlines_clean_append _ _ (cleanAppend (by decide) he),
    pySplitlines_clean_append _ _ (cleanAppend (by decide) hr),
    pySplitlines_clean_append _ _ (cleanAppend (by decide) ht),
    pySplitlines_clean_append [] _ (by intro c hc; simp at hc),
    pySplitlines_join _ hne hcl]

/-- Concrete instance of `get_modified_header_and_hunks` on a four-line
native diff output. -/
theorem get_modified_header_and_hunks_witness :
    pySplitlines (crGetModified (fun _ => "h1\nh2\n@@ -1 +1 @@\n-a".data)
        "-du".data "//d/f".data "/c/f".data "3".data "text".data []) =
      ("... depotFile ".data ++ "//d/f".data) ::
        ("... clientFile ".data ++ "/c/f".data) ::
        ("... rev ".data ++ "3".data) :: ("... type ".data ++ "text".data) ::
        ([] : Str) ::
        (pySplitlines ((fun _ : Str => "h1\nh2\n@@ -1 +1 @@\n-a".data)
          (crDiffCmd "-du".data "/c/f".data []))).drop 2 :=
  get_modified_header_and_hunks (fun _ => "h1\nh2\n@@ -1 +1 @@\n-a".data)
    "-du".data "//d/f".data "/c/f".data "3".data "text".data []
    (by decide) (by decide) (by decide) (by decide) (by decide)

/-- C7 (amended): when the native diff or historical-fetch command fails
or returns empty output, the fragment is not dropped to empty — it keeps
the synthesized header block (with, for a deleted entry, a declared count
of zero and a lone `-` body line; for a modified entry, a trailing blank
line) — and the accumulation loops still process every remaining entry. -/
theorem fragment_on_empty_output (runCmd : Str → Str)
    (myopts mfile efile rev fltype revnum dfile drev : Str)
    (x : EntryE) (restE : List EntryE) (y : EntryN) (restD : List EntryN) :
    crGetModified (fun _ => []) myopts mfile efile rev fltype revnum =
      modifiedHeader mfile efile rev fltype ++ "\n".data
    ∧ crGetDeleted (fun _ => []) dfile drev =
      "\n".data ++ "--- ".data ++ dfile ++ "\t(revision ".data ++ drev ++ ")\n".data ++
        "+++ /dev/null\n".data ++ "@@ -1,0 +0,0 @@\n".data ++ "-\n".data
    ∧ crModLoop runCmd myopts revnum (x :: restE) =
        crGetModified runCmd myopts x.1 x.2.1 x.2.2.1 x.2.2.2 revnum ++
          crModLoop runCmd myopts revnum restE
    ∧ crDelLoop runCmd (y :: restD) =
        crGetDeleted runCmd y.1 y.2.2 ++ crDelLoop runCmd restD := by
  refine ⟨?_, ?_, ?_, ?_⟩
  · simp only [crGetModified, modifiedHeader, pySplitlines, List.drop_nil, pyJoin_nil,
      List.append_assoc, List.cons_append, List.nil_append]
  · have hr : (Nat.repr (0 : Nat)).data = ['0'] := by decide
    simp only [crGetDeleted, pySplitlines, List.length_nil, pyJoin_nil, hr,
      List.append_nil, List.append_assoc, List.cons_append, List.nil_append]
  · obtain ⟨a, b, c, d⟩ := x
    rfl
  · obtain ⟨a, b, c⟩ := y
    rfl

/-- Counterexample to C7 as stated: with empty command output the
modified and deleted fragments are nonempty (the synthesized headers
survive). -/
theorem claim_C7_counterexample :
    crGetModified (fun _ => []) "-du".data "//d/f".data "/c/f".data "1".data
        "text".data [] ≠ [] ∧
    crGetDeleted (fun _ => []) "//d/f".data "1".data ≠ [] := by decide

/-- C9: whenever `main` emits diff text, that text plus some run of
trailing line feeds is exactly the raw concatenated fragment buffer — so
only line breaks at the very end are trimmed, every byte before them
(including line breaks between fragments) is unchanged, and the emitted
text does not end in a line feed. -/
theorem main_trims_trailing_newlines (runCmd readFile : Str → Str)
    (myopts revnum : Str) (iswindows : Bool) (p4depot myclroot filelist s : Str)
    (h : crMain runCmd readFile myopts revnum iswindows p4depot myclroot filelist =
      CrOutcome.diffText s) :
    ∃ k, crRawBuffer runCmd readFile myopts revnum iswindows p4depot myclroot filelist =
        s ++ List.replicate k '\n' ∧ ∀ c, s.getLast? = some c → c ≠ '\n' := by
  rw [crMain] at h
  by_cases hc : (crGetChangedFiles runCmd iswindows p4depot myclroot filelist).1.length = 0 ∧
      (crGetChangedFiles runCmd iswindows p4depot myclroot filelist).2.1.length = 0 ∧
      (crGetChangedFiles runCmd iswindows p4depot myclroot filelist).2.2.length = 0
  · rw [if_pos hc] at h
    exact absurd h (by simp)
  · rw [if_neg hc] at h
    have hs : pyRstripNl
        (crRawBuffer runCmd readFile myopts revnum iswindows p4depot myclroot filelist) = s :=
      CrOutcome.diffText.inj h
    obtain ⟨k, hk, hlast⟩ := pyRstripNl_spec
      (crRawBuffer runCmd readFile myopts revnum iswindows p4depot myclroot filelist)
    rw [hs] at hk hlast
    exact ⟨k, hk, hlast⟩

/-- Concrete instance of `main_trims_trailing_newlines` on a one-entry
added-file run. -/
theorem main_trims_trailing_newlines_witness :
    ∃ k, crRawBuffer (fun _ => "//d/f#1 - add (text)".data) (fun _ => "x".data)
        "-du".data [] false [] "/r/".data [] =
      "\n--- /dev/null\n+++ //d/f\t(revision 1)\n@@ -0,0 +1,1 @@\n+x".data ++
        List.replicate k '\n' ∧
      ∀ c, ("\n--- /dev/null\n+++ //d/f\t(revision 1)\n@@ -0,0 +1,1 @@\n+x".data : Str).getLast? =
          some c → c ≠ '\n' :=
  main_trims_trailing_newlines (fun _ => "//d/f#1 - add (text)".data) (fun _ => "x".data)
    "-du".data [] false [] "/r/".data []
    "\n--- /dev/null\n+++ //d/f\t(revision 1)\n@@ -0,0 +1,1 @@\n+x".data (by decide)

/-- C8: when no listing line is accepted by the classifier, `main` stops
with the "Nothing modified, added, nor deleted" outcome, produces no diff
text, and exits with status zero. -/
theorem main_nothing_changed (runCmd readFile : Str → Str) (myopts revnum : Str)
    (iswindows : Bool) (p4depot myclroot filelist : Str)
    (h : ∀ line ∈ pySplitNl (runCmd (crOpenedCmd filelist)),
      crLineEdit iswindows myclroot line = none ∧
      crLineAdd iswindows myclroot line = none ∧
      crLineDel iswindows myclroot line = none) :
    crMain runCmd readFile myopts revnum iswindows p4depot myclroot filelist =
      CrOutcome.nothingChanged ∧
    crExitCode (crMain runCmd readFile myopts revnum iswindows p4depot myclroot filelist) = 0 := by
  have he : (pySplitNl (runCmd (crOpenedCmd filelist))).filterMap
      (crLineEdit iswindows myclroot) = [] :=
    List.filterMap_eq_nil_iff.mpr (fun a ha => (h a ha).1)
  have ha : (pySplitNl (runCmd (crOpenedCmd filelist))).filterMap
      (crLineAdd iswindows myclroot) = [] :=
    List.filterMap_eq_nil_iff.mpr (fun a ha => (h a ha).2.1)
  have hd : (pySplitNl (runCmd (crOpenedCmd filelist))).filterMap
      (crLineDel iswindows myclroot) = [] :=
    List.filterMap_eq_nil_iff.mpr (fun a ha => (h a ha).2.2)
  have hmain : crMain runCmd readFile myopts revnum iswindows p4depot myclroot filelist =
      CrOutcome.nothingChanged := by
    simp [crMain, crGetChangedFiles_eq, he, ha, hd]
  exact ⟨hmain, by rw [hmain]; rfl⟩

/-- Concrete instance of `main_nothing_changed`: a listing of only
informational lines yields the "nothing changed" outcome with exit
status zero. -/
theorem main_nothing_changed_witness :
    crMain (fun _ => "change 1234 pending\nno files opened".data) (fun _ => [])
        "-du".data [] false [] "/r/".data [] = CrOutcome.nothingChanged ∧
    crExitCode (crMain (fun _ => "change 1234 pending\nno files opened".data) (fun _ => [])
        "-du".data [] false [] "/r/".data []) = 0 :=
  main_nothing_changed (fun _ => "change 1234 pending\nno files opened".data) (fun _ => [])
    "-du".data [] false [] "/r/".data [] (by decide)
